import Mathlib

/-!
Verification of `libp2p-identify/src/protocol.rs`: a shallow embedding of
the identify protocol upgrade (message codec, role flows, single-use
sender) together with theorems about its behaviour.

Network addresses (the `Multiaddr` type of the external `multiaddr` crate)
are opaque byte blobs to this code, so the embedding is parametric in an
address codec.  The generated protobuf module `structs_proto` is part of
the repository but not among the given sources; its wire representation is
modelled from the spec's schema table (fields `publicKey`, `protocolVersion`,
`agentVersion`, `listenAddrs`, `observedAddr`, `protocols`, the singular
ones carrying proto2 presence, the repeated ones order-preserving).
-/

namespace Libp2pIdentify

/-- Byte sequences (`Vec<u8>` in the source). -/
abbrev Bytes := List Nat

/-- The external address codec (the `multiaddr` crate): `Multiaddr::to_bytes`
and `Multiaddr::from_bytes`.  `from_bytes` may fail on malformed blobs, in
which case it reports a textual cause. -/
structure AddrCodec (Addr : Type) where
  to_bytes : Addr → Bytes
  from_bytes : Bytes → Except String Addr

/-- The subset of `std::io::ErrorKind` the source distinguishes:
`InvalidData` is the data/protocol error kind used by the identify code;
`unexpectedEof` and `other` stand for the generic I/O kinds it never
produces itself. -/
inductive IoErrorKind where
  | invalidData
  | unexpectedEof
  | other
deriving DecidableEq, Repr

/-- `std::io::Error`: a kind plus an optional wrapped cause
(`IoError::new(kind, err)` sets the cause, `kind.into()` leaves it empty). -/
structure IoError where
  kind : IoErrorKind
  cause : Option String
deriving DecidableEq, Repr

/-- One length-delimited value inside a serialized protobuf message:
either a byte blob or a UTF-8 string.  Modelled from the spec: the wire
types of the schema table are `bytes` and `string` (and their repeated
forms), all length-delimited. -/
inductive WireValue where
  | bytes (b : Bytes)
  | str (s : String)
deriving DecidableEq, Repr

/-- A serialized `Identify` protobuf message: the ordered sequence of
(field number, value) entries of the wire payload.  Modelled from the
spec: one frame holds exactly one serialized message. -/
abbrev WireMsg := List (Nat × WireValue)

/-- In-memory form of the generated `structs_proto::Identify` message.
Modelled from the spec: singular fields carry proto2 presence (`Option`),
repeated fields are ordered lists.  Field numbers follow the schema
table's order: 1 publicKey, 2 protocolVersion, 3 agentVersion,
4 listenAddrs, 5 observedAddr, 6 protocols. -/
structure Identify where
  publicKey : Option Bytes
  protocolVersion : Option String
  agentVersion : Option String
  listenAddrs : List Bytes
  observedAddr : Option Bytes
  protocols : List String
deriving DecidableEq, Repr

/-- `structs_proto::Identify::new()`: every field absent / empty. -/
def Identify.new : Identify :=
  { publicKey := none, protocolVersion := none, agentVersion := none
  , listenAddrs := [], observedAddr := none, protocols := [] }

/-- `set_publicKey`. -/
def Identify.set_publicKey (m : Identify) (b : Bytes) : Identify :=
  { m with publicKey := some b }

/-- `set_protocolVersion`. -/
def Identify.set_protocolVersion (m : Identify) (s : String) : Identify :=
  { m with protocolVersion := some s }

/-- `set_agentVersion`. -/
def Identify.set_agentVersion (m : Identify) (s : String) : Identify :=
  { m with agentVersion := some s }

/-- `set_listenAddrs`. -/
def Identify.set_listenAddrs (m : Identify) (bs : List Bytes) : Identify :=
  { m with listenAddrs := bs }

/-- `set_observedAddr`. -/
def Identify.set_observedAddr (m : Identify) (b : Bytes) : Identify :=
  { m with observedAddr := some b }

/-- `set_protocols`. -/
def Identify.set_protocols (m : Identify) (ss : List String) : Identify :=
  { m with protocols := ss }

/-- `take_publicKey`: the field's value, or the proto2 default (empty
bytes) when the field is absent. -/
def Identify.take_publicKey (m : Identify) : Bytes :=
  m.publicKey.getD []

/-- `take_protocolVersion`: the field's value or the empty string. -/
def Identify.take_protocolVersion (m : Identify) : String :=
  m.protocolVersion.getD ""

/-- `take_agentVersion`: the field's value or the empty string. -/
def Identify.take_agentVersion (m : Identify) : String :=
  m.agentVersion.getD ""

/-- `take_listenAddrs`: the repeated field's elements in order. -/
def Identify.take_listenAddrs (m : Identify) : List Bytes :=
  m.listenAddrs

/-- `take_observedAddr`: the field's value or empty bytes. -/
def Identify.take_observedAddr (m : Identify) : Bytes :=
  m.observedAddr.getD []

/-- `take_protocols`: the repeated field's elements in order. -/
def Identify.take_protocols (m : Identify) : List String :=
  m.protocols

/-- `Identify::write_to_bytes`, modelled from the spec: emit every present
singular field and every element of the repeated fields, in field-number
order, as (field number, value) entries.  Serialization is total: a
message built from valid in-memory fields always has a wire form. -/
def Identify.writeToWire (m : Identify) : WireMsg :=
  (match m.publicKey with
    | some b => [(1, WireValue.bytes b)]
    | none => [])
  ++ (match m.protocolVersion with
    | some s => [(2, WireValue.str s)]
    | none => [])
  ++ (match m.agentVersion with
    | some s => [(3, WireValue.str s)]
    | none => [])
  ++ m.listenAddrs.map (fun b => (4, WireValue.bytes b))
  ++ (match m.observedAddr with
    | some b => [(5, WireValue.bytes b)]
    | none => [])
  ++ m.protocols.map (fun s => (6, WireValue.str s))

/-- One step of protobuf message parsing, modelled from the spec: a known
field number with the matching wire type updates the message (singular:
last value wins; repeated: append), a known field number with the wrong
wire type (for instance a non-UTF-8 payload in a string position) is a
structural parse failure, and an unknown field number is skipped. -/
def parseEntry (m : Identify) (e : Nat × WireValue) : Except String Identify :=
  match e with
  | (1, WireValue.bytes b) => Except.ok { m with publicKey := some b }
  | (1, WireValue.str _) => Except.error "publicKey: wrong wire type"
  | (2, WireValue.str s) => Except.ok { m with protocolVersion := some s }
  | (2, WireValue.bytes _) => Except.error "protocolVersion: wrong wire type"
  | (3, WireValue.str s) => Except.ok { m with agentVersion := some s }
  | (3, WireValue.bytes _) => Except.error "agentVersion: wrong wire type"
  | (4, WireValue.bytes b) => Except.ok { m with listenAddrs := m.listenAddrs ++ [b] }
  | (4, WireValue.str _) => Except.error "listenAddrs: wrong wire type"
  | (5, WireValue.bytes b) => Except.ok { m with observedAddr := some b }
  | (5, WireValue.str _) => Except.error "observedAddr: wrong wire type"
  | (6, WireValue.str s) => Except.ok { m with protocols := m.protocols ++ [s] }
  | (6, WireValue.bytes _) => Except.error "protocols: wrong wire type"
  | (_, _) => Except.ok m

/-- Fold of `parseEntry` over the remaining wire entries, aborting at the
first structural failure. -/
def parseWireAux (m : Identify) : WireMsg → Except String Identify
  | [] => Except.ok m
  | e :: rest =>
    match parseEntry m e with
    | Except.ok m2 => parseWireAux m2 rest
    | Except.error err => Except.error err

/-- `protobuf::core::parse_from_bytes::<structs_proto::Identify>`, modelled
from the spec: parse the payload's entries into a fresh message; no
presence check is performed beyond per-entry structure. -/
def parseWire (w : WireMsg) : Except String Identify :=
  parseWireAux Identify.new w

/-- `IdentifyInfo` (protocol.rs lines 100-114): information sent from the
listener to the dialer. -/
structure IdentifyInfo (Addr : Type) where
  public_key : Bytes
  protocol_version : String
  agent_version : String
  listen_addrs : List Addr
  protocols : List String
deriving DecidableEq, Repr

/-- State of one framed connection, as this protocol observes it:
`inbound` is the sequence of frames still to be delivered (after them the
stream ends), `inboundEnd` is how it ends (`none`: clean close, `some e`:
a transport read error), `outbound` is the sequence of frames written so
far, and `writeErr` is the transport's behaviour on the next frame write
(`none`: the write is accepted, `some e`: it fails with `e`). -/
structure Socket where
  inbound : List WireMsg
  inboundEnd : Option IoError
  outbound : List WireMsg
  writeErr : Option IoError
deriving DecidableEq, Repr

/-- `IdentifySender` (protocol.rs lines 59-62): exclusively owns the framed
connection handed over by the listener-side upgrade. -/
structure IdentifySender where
  inner : Socket
deriving DecidableEq, Repr

/-- `IdentifyOutput` (protocol.rs lines 40-57): output of the connection
upgrade, one variant per role. -/
inductive IdentifyOutput (Addr : Type) where
  | remoteInfo (info : IdentifyInfo Addr) (observed_addr : Addr)
  | sender (sender : IdentifySender) (observed_addr : Addr)
deriving DecidableEq, Repr

/-- `libp2p_swarm::Endpoint`: the role of this side of the connection. -/
inductive Endpoint where
  | dialer
  | listener
deriving DecidableEq, Repr

/-- Construction and serialization of the outbound identify message inside
`IdentifySender::send` (protocol.rs lines 78-93): encode the listen
addresses, fill every field of a fresh protobuf message, and serialize.
The `.expect` on `write_to_bytes` never fires: serialization of a message
built from valid fields is total. -/
def IdentifySender.sendPayload {Addr : Type} (codec : AddrCodec Addr)
    (info : IdentifyInfo Addr) (observed_addr : Addr) : WireMsg :=
  let listen_addrs := info.listen_addrs.map codec.to_bytes
  let message := Identify.new
  let message := message.set_agentVersion info.agent_version
  let message := message.set_protocolVersion info.protocol_version
  let message := message.set_publicKey info.public_key
  let message := message.set_listenAddrs listen_addrs
  let message := message.set_observedAddr (codec.to_bytes observed_addr)
  let message := message.set_protocols info.protocols
  message.writeToWire

/-- `IdentifySender::send` (protocol.rs lines 70-97): serialize the info
and write the single frame through the owned framed connection.  The
returned error, when any, is the transport's write failure; the second
component is the connection state afterwards. -/
def IdentifySender.send {Addr : Type} (codec : AddrCodec Addr)
    (self : IdentifySender) (info : IdentifyInfo Addr) (observed_addr : Addr) :
    Except IoError Unit × Socket :=
  let bytes := IdentifySender.sendPayload codec info observed_addr
  match self.inner.writeErr with
  | some e => (Except.error e, self.inner)
  | none =>
    (Except.ok (), { self.inner with outbound := self.inner.outbound ++ [bytes] })

/-- Helper of `parse_proto_msg` (protocol.rs lines 201-204): decode one
address blob, wrapping a codec failure as an `InvalidData` I/O error with
the cause preserved. -/
def bytes_to_multiaddr {Addr : Type} (codec : AddrCodec Addr)
    (bytes : Bytes) : Except IoError Addr :=
  match codec.from_bytes bytes with
  | Except.ok a => Except.ok a
  | Except.error err => Except.error { kind := IoErrorKind.invalidData, cause := some err }

/-- The `listenAddrs` decoding loop of `parse_proto_msg` (protocol.rs
lines 206-212): decode each blob in order, aborting at the first failure. -/
def decodeAddrs {Addr : Type} (codec : AddrCodec Addr) :
    List Bytes → Except IoError (List Addr)
  | [] => Except.ok []
  | b :: rest =>
    match bytes_to_multiaddr codec b with
    | Except.ok a =>
      match decodeAddrs codec rest with
      | Except.ok addrs => Except.ok (a :: addrs)
      | Except.error e => Except.error e
    | Except.error e => Except.error e

/-- `parse_proto_msg` (protocol.rs lines 196-229): parse the protobuf
payload, decode every `listenAddrs` blob and the `observedAddr` blob, and
assemble the `IdentifyInfo`; every failure is an `InvalidData` I/O error. -/
def parse_proto_msg {Addr : Type} (codec : AddrCodec Addr) (msg : WireMsg) :
    Except IoError (IdentifyInfo Addr × Addr) :=
  match parseWire msg with
  | Except.ok m =>
    match decodeAddrs codec m.take_listenAddrs with
    | Except.ok listen_addrs =>
      match bytes_to_multiaddr codec m.take_observedAddr with
      | Except.ok observed_addr =>
        Except.ok
          ({ public_key := m.take_publicKey
           , protocol_version := m.take_protocolVersion
           , agent_version := m.take_agentVersion
           , listen_addrs := listen_addrs
           , protocols := m.take_protocols }, observed_addr)
      | Except.error e => Except.error e
    | Except.error e => Except.error e
  | Except.error err =>
    Except.error { kind := IoErrorKind.invalidData, cause := some err }

/-- `iter::once`: a one-element sequence. -/
def iterOnce {α : Type} (x : α) : List α := [x]

/-- `IdentifyProtocolConfig::protocol_names` (protocol.rs lines 125-128). -/
def IdentifyProtocolConfig.protocol_names : List (String × Unit) :=
  iterOnce ("/ipfs/id/1.0.0", ())

/-- `IdentifyProtocolConfig::upgrade` (protocol.rs lines 130-191): wrap the
socket in varint framing and branch on the role.  Dialer: take the first
inbound frame; a clean close before any frame is an `InvalidData` error, a
transport read error propagates unchanged, and a delivered frame goes
through `parse_proto_msg`.  Listener: hand the framed socket to an
`IdentifySender` and return immediately, without touching the connection.
The second component is the connection state after the operation. -/
def IdentifyProtocolConfig.upgrade {Addr : Type} (codec : AddrCodec Addr)
    (socket : Socket) (ty : Endpoint) (observed_addr : Addr) :
    Except IoError (IdentifyOutput Addr) × Socket :=
  match ty with
  | Endpoint.dialer =>
    match socket.inbound with
    | [] =>
      match socket.inboundEnd with
      | some e => (Except.error e, socket)
      | none =>
        (Except.error { kind := IoErrorKind.invalidData, cause := none }, socket)
    | msg :: rest =>
      let socket2 := { socket with inbound := rest }
      match parse_proto_msg codec msg with
      | Except.ok (info, observed_addr) =>
        (Except.ok (IdentifyOutput.remoteInfo info observed_addr), socket2)
      | Except.error e => (Except.error e, socket2)
  | Endpoint.listener =>
    (Except.ok (IdentifyOutput.sender { inner := socket } observed_addr), socket)

/-- Lifecycle of a send capability: `ready` before its single use, `spent`
after it. -/
inductive SenderLife where
  | ready (sender : IdentifySender)
  | spent (final : Socket)

/-- The operations available on a send capability: the one consuming
`send`, which moves the capability from `ready` to `spent`.  No operation
exists on a `spent` capability — re-use is ruled out by construction, not
by a runtime check. -/
inductive SenderStep {Addr : Type} (codec : AddrCodec Addr) :
    SenderLife → SenderLife → Prop where
  | doSend (s : IdentifySender) (info : IdentifyInfo Addr) (observed_addr : Addr) :
      SenderStep codec (SenderLife.ready s)
        (SenderLife.spent (IdentifySender.send codec s info observed_addr).2)

/-- A concrete address codec instance for evaluation: an address is a
natural number whose byte encoding is the singleton list; every blob that
is not a singleton is malformed. -/
def natCodec : AddrCodec Nat where
  to_bytes a := [a]
  from_bytes bs :=
    match bs with
    | [a] => Except.ok a
    | _ => Except.error "invalid multiaddr"

/-- A fresh idle connection: no frames pending, clean close after them,
nothing written, writes accepted. -/
def sock0 : Socket :=
  { inbound := [], inboundEnd := none, outbound := [], writeErr := none }

/-- A connection with two inbound frames available: an empty payload
followed by a second frame. -/
def sock2 : Socket :=
  { inbound := [[], [(1, WireValue.bytes [9])]]
  , inboundEnd := none, outbound := [], writeErr := none }

/-- A ready sender owning the idle connection. -/
def sender0 : IdentifySender := { inner := sock0 }

/-- The identity record of the repository's end-to-end test, with
addresses rendered in the `natCodec` model. -/
def info0 : IdentifyInfo Nat :=
  { public_key := [1, 2, 3, 4, 5, 7]
  , protocol_version := "proto_version"
  , agent_version := "agent_version"
  , listen_addrs := [80, 81]
  , protocols := ["proto1", "proto2"] }

/-- A payload whose second `listenAddrs` blob is malformed for `natCodec`. -/
def msgBadAddr : WireMsg :=
  [(4, WireValue.bytes [80]), (4, WireValue.bytes [1, 2]), (5, WireValue.bytes [7])]

/-- A payload carrying only the `observedAddr` field; every other field is
absent from the wire. -/
def msgOnlyObserved : WireMsg := [(5, WireValue.bytes [7])]

/-! ## Supporting lemmas -/

/-- Parsing a `publicKey` entry updates the field and continues. -/
theorem parseWireAux_pk (acc : Identify) (b : Bytes) (rest : WireMsg) :
    parseWireAux acc (((1 : Nat), WireValue.bytes b) :: rest) =
      parseWireAux { acc with publicKey := some b } rest := rfl

/-- Parsing a `protocolVersion` entry updates the field and continues. -/
theorem parseWireAux_pv (acc : Identify) (s : String) (rest : WireMsg) :
    parseWireAux acc (((2 : Nat), WireValue.str s) :: rest) =
      parseWireAux { acc with protocolVersion := some s } rest := rfl

/-- Parsing an `agentVersion` entry updates the field and continues. -/
theorem parseWireAux_av (acc : Identify) (s : String) (rest : WireMsg) :
    parseWireAux acc (((3 : Nat), WireValue.str s) :: rest) =
      parseWireAux { acc with agentVersion := some s } rest := rfl

/-- Parsing an `observedAddr` entry updates the field and continues. -/
theorem parseWireAux_oa (acc : Identify) (b : Bytes) (rest : WireMsg) :
    parseWireAux acc (((5 : Nat), WireValue.bytes b) :: rest) =
      parseWireAux { acc with observedAddr := some b } rest := rfl

/-- Parsing a block of `listenAddrs` entries appends the blobs in order. -/
theorem parseWireAux_listenSeg (acc : Identify) (bs : List Bytes) (rest : WireMsg) :
    parseWireAux acc ((bs.map fun b => ((4 : Nat), WireValue.bytes b)) ++ rest) =
      parseWireAux { acc with listenAddrs := acc.listenAddrs ++ bs } rest := by
  induction bs generalizing acc with
  | nil => simp
  | cons b bs ih =>
    simp only [List.map_cons, List.cons_append]
    rw [show parseWireAux acc (((4 : Nat), WireValue.bytes b) ::
          ((bs.map fun b => ((4 : Nat), WireValue.bytes b)) ++ rest)) =
        parseWireAux { acc with listenAddrs := acc.listenAddrs ++ [b] }
          ((bs.map fun b => ((4 : Nat), WireValue.bytes b)) ++ rest) from rfl]
    rw [ih]
    simp [List.append_assoc]

/-- Parsing a block of `protocols` entries appends the strings in order. -/
theorem parseWireAux_protoSeg (acc : Identify) (ss : List String) :
    parseWireAux acc (ss.map fun s => ((6 : Nat), WireValue.str s)) =
      Except.ok { acc with protocols := acc.protocols ++ ss } := by
  induction ss generalizing acc with
  | nil => simp [parseWireAux]
  | cons s ss ih =>
    simp only [List.map_cons]
    rw [show parseWireAux acc (((6 : Nat), WireValue.str s) ::
          (ss.map fun s => ((6 : Nat), WireValue.str s))) =
        parseWireAux { acc with protocols := acc.protocols ++ [s] }
          (ss.map fun s => ((6 : Nat), WireValue.str s)) from rfl]
    rw [ih]
    simp [List.append_assoc]

/-- Deserializing the serialization of a message whose singular fields are
all present recovers the message exactly. -/
theorem parseWire_writeToWire (pk : Bytes) (pv av : String) (las : List Bytes)
    (oab : Bytes) (ps : List String) :
    parseWire (Identify.writeToWire
      { publicKey := some pk, protocolVersion := some pv, agentVersion := some av
      , listenAddrs := las, observedAddr := some oab, protocols := ps }) =
      Except.ok
        { publicKey := some pk, protocolVersion := some pv, agentVersion := some av
        , listenAddrs := las, observedAddr := some oab, protocols := ps } := by
  show parseWireAux Identify.new _ = _
  simp only [Identify.writeToWire, List.append_assoc, List.singleton_append,
    List.cons_append, List.nil_append]
  rw [parseWireAux_pk, parseWireAux_pv, parseWireAux_av, parseWireAux_listenSeg]
  simp only [List.nil_append]
  rw [parseWireAux_oa, parseWireAux_protoSeg]
  simp [Identify.new]

/-- Decoding the encodings of a list of addresses succeeds and recovers
the addresses, whenever the codec round-trips. -/
theorem decodeAddrs_map {Addr : Type} (codec : AddrCodec Addr)
    (hrt : ∀ a, codec.from_bytes (codec.to_bytes a) = Except.ok a)
    (addrs : List Addr) :
    decodeAddrs codec (addrs.map codec.to_bytes) = Except.ok addrs := by
  induction addrs with
  | nil => rfl
  | cons a as ih => simp [decodeAddrs, bytes_to_multiaddr, hrt, ih]

/-- If some blob of the list fails address decoding, the whole decoding
loop fails. -/
theorem decodeAddrs_error {Addr : Type} (codec : AddrCodec Addr) (bs : List Bytes)
    (h : ∃ b ∈ bs, ∃ e, codec.from_bytes b = Except.error e) :
    ∃ e2, decodeAddrs codec bs = Except.error e2 := by
  induction bs with
  | nil =>
    obtain ⟨b, hb, _⟩ := h
    cases hb
  | cons b rest ih =>
    cases hc : codec.from_bytes b with
    | error e0 =>
      exact ⟨{ kind := IoErrorKind.invalidData, cause := some e0 },
        by simp [decodeAddrs, bytes_to_multiaddr, hc]⟩
    | ok a =>
      obtain ⟨b2, hb2, e, he⟩ := h
      rcases List.mem_cons.mp hb2 with hbb | hmem
      · rw [hbb] at he
        rw [he] at hc
        cases hc
      · obtain ⟨e2, hrest⟩ := ih ⟨b2, hmem, e, he⟩
        exact ⟨e2, by simp [decodeAddrs, bytes_to_multiaddr, hc, hrest]⟩

/-! ## Claims -/

/-- Claim C1: for every `IdentityRecord` (arbitrary public key bytes,
protocol/agent version strings, listen address list, protocol list) and
every observed address, decoding the payload produced by encoding yields
exactly the same record and address, field for field, preserving list
order and decoding empty `listen_addrs`/`protocols` back to empty
sequences.  The address codec is assumed to round-trip, the codec being
an external collaborator. -/
theorem send_decode_roundtrip {Addr : Type} (codec : AddrCodec Addr)
    (hrt : ∀ a, codec.from_bytes (codec.to_bytes a) = Except.ok a)
    (info : IdentifyInfo Addr) (observed_addr : Addr) :
    parse_proto_msg codec (IdentifySender.sendPayload codec info observed_addr) =
      Except.ok (info, observed_addr) := by
  obtain ⟨pk, pv, av, las, ps⟩ := info
  have hmsg : IdentifySender.sendPayload codec
      { public_key := pk, protocol_version := pv, agent_version := av
      , listen_addrs := las, protocols := ps } observed_addr =
      Identify.writeToWire
        { publicKey := some pk, protocolVersion := some pv, agentVersion := some av
        , listenAddrs := las.map codec.to_bytes
        , observedAddr := some (codec.to_bytes observed_addr), protocols := ps } := rfl
  rw [hmsg]
  simp [parse_proto_msg, parseWire_writeToWire, Identify.take_listenAddrs,
    Identify.take_observedAddr, Identify.take_publicKey, Identify.take_protocolVersion,
    Identify.take_agentVersion, Identify.take_protocols,
    decodeAddrs_map codec hrt, bytes_to_multiaddr, hrt]

/-- Witness for C1: the codec round-trip hypothesis holds for `natCodec`,
and the round trip is exact on the repository test's record. -/
theorem send_decode_roundtrip_witness :
    (∀ a, natCodec.from_bytes (natCodec.to_bytes a) = Except.ok a) ∧
    parse_proto_msg natCodec (IdentifySender.sendPayload natCodec info0 100) =
      Except.ok (info0, 100) :=
  ⟨fun _ => rfl, send_decode_roundtrip natCodec (fun _ => rfl) info0 100⟩

/-- Claim C2: a dialer-side upgrade whose framed stream closes cleanly
before delivering any frame fails with the `InvalidData` data/protocol
error kind — not one of the generic I/O kinds and not a success. -/
theorem dialer_premature_close {Addr : Type} (codec : AddrCodec Addr)
    (socket : Socket) (observed_addr : Addr)
    (hframes : socket.inbound = []) (hclean : socket.inboundEnd = none) :
    (IdentifyProtocolConfig.upgrade codec socket Endpoint.dialer observed_addr).1 =
      Except.error { kind := IoErrorKind.invalidData, cause := none } ∧
    IoErrorKind.invalidData ≠ IoErrorKind.other ∧
    IoErrorKind.invalidData ≠ IoErrorKind.unexpectedEof ∧
    ∀ out, (IdentifyProtocolConfig.upgrade codec socket Endpoint.dialer
      observed_addr).1 ≠ Except.ok out := by
  have h1 : (IdentifyProtocolConfig.upgrade codec socket Endpoint.dialer
      observed_addr).1 =
      Except.error { kind := IoErrorKind.invalidData, cause := none } := by
    simp [IdentifyProtocolConfig.upgrade, hframes, hclean]
  refine ⟨h1, by simp, by simp, ?_⟩
  intro out hout
  rw [h1] at hout
  cases hout

/-- Witness for C2 on the idle connection. -/
theorem dialer_premature_close_witness :
    (IdentifyProtocolConfig.upgrade natCodec sock0 Endpoint.dialer 0).1 =
      Except.error { kind := IoErrorKind.invalidData, cause := none } ∧
    IoErrorKind.invalidData ≠ IoErrorKind.other ∧
    IoErrorKind.invalidData ≠ IoErrorKind.unexpectedEof ∧
    ∀ out, (IdentifyProtocolConfig.upgrade natCodec sock0 Endpoint.dialer 0).1 ≠
      Except.ok out :=
  dialer_premature_close natCodec sock0 0 rfl rfl

/-- Claim C3: a payload in which some `listenAddrs` blob (or the
`observedAddr` blob) fails address decoding makes the whole decode fail;
no record — partial or otherwise — is ever returned. -/
theorem decode_fail_fast {Addr : Type} (codec : AddrCodec Addr)
    (msg : WireMsg) (m : Identify)
    (hp : parseWire msg = Except.ok m)
    (hbad : (∃ b ∈ m.take_listenAddrs, ∃ e, codec.from_bytes b = Except.error e) ∨
            (∃ e, codec.from_bytes m.take_observedAddr = Except.error e)) :
    (∃ e2, parse_proto_msg codec msg = Except.error e2) ∧
    ∀ r, parse_proto_msg codec msg ≠ Except.ok r := by
  have hmain : ∃ e2, parse_proto_msg codec msg = Except.error e2 := by
    cases hda : decodeAddrs codec m.take_listenAddrs with
    | error e2 => exact ⟨e2, by simp [parse_proto_msg, hp, hda]⟩
    | ok addrs =>
      rcases hbad with hla | ⟨e, he⟩
      · obtain ⟨e2, habort⟩ := decodeAddrs_error codec m.take_listenAddrs hla
        rw [habort] at hda
        cases hda
      · exact ⟨{ kind := IoErrorKind.invalidData, cause := some e },
          by simp [parse_proto_msg, hp, hda, bytes_to_multiaddr, he]⟩
  refine ⟨hmain, ?_⟩
  obtain ⟨e2, he2⟩ := hmain
  intro r hr
  rw [he2] at hr
  cases hr

/-- Witness for C3 on a payload whose second listen address is malformed. -/
theorem decode_fail_fast_witness :
    (∃ e2, parse_proto_msg natCodec msgBadAddr = Except.error e2) ∧
    ∀ r, parse_proto_msg natCodec msgBadAddr ≠ Except.ok r :=
  decode_fail_fast natCodec msgBadAddr
    { publicKey := none, protocolVersion := none, agentVersion := none
    , listenAddrs := [[80], [1, 2]], observedAddr := some [7], protocols := [] }
    rfl (Or.inl ⟨[1, 2], by decide, "invalid multiaddr", rfl⟩)

/-- Claim C4: a listener-side upgrade performs zero network I/O (no frame
read or written, connection state untouched) and returns immediately with
the `Sender` variant wrapping the connection and carrying the caller's
observed address unchanged. -/
theorem listener_pure {Addr : Type} (codec : AddrCodec Addr)
    (socket : Socket) (observed_addr : Addr) :
    IdentifyProtocolConfig.upgrade codec socket Endpoint.listener observed_addr =
      (Except.ok (IdentifyOutput.sender { inner := socket } observed_addr),
        socket) := rfl

/-- Claim C5: the only operation on a ready send capability is the
consuming send, which writes exactly one frame (the encoded record) and
leaves the capability spent; no operation exists on a spent capability,
so a second send is impossible by construction. -/
theorem sender_consumed_once {Addr : Type} (codec : AddrCodec Addr)
    (a b : SenderLife) (h : SenderStep codec a b) :
    (∃ s info oa, a = SenderLife.ready s ∧
       b = SenderLife.spent (IdentifySender.send codec s info oa).2 ∧
       (s.inner.writeErr = none →
         (IdentifySender.send codec s info oa).2.outbound =
           s.inner.outbound ++ [IdentifySender.sendPayload codec info oa])) ∧
    ∀ c, ¬ SenderStep codec b c := by
  cases h with
  | doSend s info oa =>
    refine ⟨⟨s, info, oa, rfl, rfl, ?_⟩, ?_⟩
    · intro hw
      simp [IdentifySender.send, hw]
    · intro c hc
      cases hc

/-- Witness for C5: a concrete send step from the ready sender, after
which no further step exists. -/
theorem sender_consumed_once_witness :
    (∃ s info oa, SenderLife.ready sender0 = SenderLife.ready s ∧
       SenderLife.spent (IdentifySender.send natCodec sender0 info0 100).2 =
         SenderLife.spent (IdentifySender.send natCodec s info oa).2 ∧
       (s.inner.writeErr = none →
         (IdentifySender.send natCodec s info oa).2.outbound =
           s.inner.outbound ++ [IdentifySender.sendPayload natCodec info oa])) ∧
    ∀ c, ¬ SenderStep natCodec
      (SenderLife.spent (IdentifySender.send natCodec sender0 info0 100).2) c :=
  sender_consumed_once natCodec _ _ (SenderStep.doSend sender0 info0 100)

/-- Claim C6: a dialer-side upgrade consumes exactly the first inbound
frame: whatever the parse outcome, the connection afterwards still holds
every later frame, and nothing was written. -/
theorem dialer_single_frame {Addr : Type} (codec : AddrCodec Addr)
    (socket : Socket) (observed_addr : Addr) (msg : WireMsg) (rest : List WireMsg)
    (h : socket.inbound = msg :: rest) :
    (IdentifyProtocolConfig.upgrade codec socket Endpoint.dialer observed_addr).2 =
      { socket with inbound := rest } := by
  simp only [IdentifyProtocolConfig.upgrade, h]
  rcases hp : parse_proto_msg codec msg with e | ⟨i, oa⟩ <;> simp [hp]

/-- Witness for C6: with two frames queued (the first one malformed), the
upgrade leaves exactly the second frame unread. -/
theorem dialer_single_frame_witness :
    (IdentifyProtocolConfig.upgrade natCodec sock2 Endpoint.dialer 0).2 =
      { sock2 with inbound := [[(1, WireValue.bytes [9])]] } :=
  dialer_single_frame natCodec sock2 0 [] [[(1, WireValue.bytes [9])]] rfl

/-- Claim C7: the protocol-name enumeration yields exactly one element,
the fixed token "/ipfs/id/1.0.0". -/
theorem protocol_names_single :
    IdentifyProtocolConfig.protocol_names.length = 1 ∧
    IdentifyProtocolConfig.protocol_names = [("/ipfs/id/1.0.0", ())] :=
  ⟨rfl, rfl⟩

/-- Claim C8: serialization inside `send` is total (the modelled
`write_to_bytes` cannot fail, matching the source's `.expect` that marks
failure as an invariant breach), so the error result of `send` is
exactly the transport's write failure and success coincides with the
transport accepting the frame. -/
theorem send_error_is_transport {Addr : Type} (codec : AddrCodec Addr)
    (s : IdentifySender) (info : IdentifyInfo Addr) (observed_addr : Addr)
    (e : IoError) :
    ((IdentifySender.send codec s info observed_addr).1 = Except.error e ↔
      s.inner.writeErr = some e) ∧
    ((IdentifySender.send codec s info observed_addr).1 = Except.ok () ↔
      s.inner.writeErr = none) := by
  cases hw : s.inner.writeErr with
  | none => simp [IdentifySender.send, hw]
  | some e0 =>
    constructor
    · constructor
      · intro h1
        simp [IdentifySender.send, hw] at h1
        rw [h1]
      · intro h1
        cases h1
        simp [IdentifySender.send, hw]
    · simp [IdentifySender.send, hw]

/-- Claim C9: a listener-side upgrade never fails: whatever the state of
the underlying connection, it resolves successfully with the `Sender`
variant. -/
theorem listener_never_fails {Addr : Type} (codec : AddrCodec Addr)
    (socket : Socket) (observed_addr : Addr) :
    ∃ s oa, (IdentifyProtocolConfig.upgrade codec socket Endpoint.listener
      observed_addr).1 = Except.ok (IdentifyOutput.sender s oa) :=
  ⟨{ inner := socket }, observed_addr, rfl⟩

/-- Claim C10: decode performs no required-field presence check: a payload
that parses structurally and whose address blobs decode succeeds even
when `publicKey`, `protocolVersion`, `agentVersion` or the repeated
fields are absent from the wire, and the absent fields come back as
empty bytes / empty strings / empty sequences. -/
theorem decode_no_presence_check {Addr : Type} (codec : AddrCodec Addr)
    (msg : WireMsg) (m : Identify)
    (hp : parseWire msg = Except.ok m)
    (hla : ∃ addrs, decodeAddrs codec m.take_listenAddrs = Except.ok addrs)
    (hoa : ∃ a, bytes_to_multiaddr codec m.take_observedAddr = Except.ok a) :
    ∃ info oa, parse_proto_msg codec msg = Except.ok (info, oa) ∧
      (m.publicKey = none → info.public_key = []) ∧
      (m.protocolVersion = none → info.protocol_version = "") ∧
      (m.agentVersion = none → info.agent_version = "") ∧
      (m.listenAddrs = [] → info.listen_addrs = []) ∧
      (m.protocols = [] → info.protocols = []) := by
  obtain ⟨addrs, hda⟩ := hla
  obtain ⟨a, hba⟩ := hoa
  refine ⟨{ public_key := m.take_publicKey
          , protocol_version := m.take_protocolVersion
          , agent_version := m.take_agentVersion
          , listen_addrs := addrs
          , protocols := m.take_protocols }, a,
    by simp [parse_proto_msg, hp, hda, hba], ?_, ?_, ?_, ?_, ?_⟩
  · intro habs
    simp [Identify.take_publicKey, habs]
  · intro habs
    simp [Identify.take_protocolVersion, habs]
  · intro habs
    simp [Identify.take_agentVersion, habs]
  · intro habs
    rw [Identify.take_listenAddrs, habs] at hda
    cases hda
    rfl
  · intro habs
    simp [Identify.take_protocols, habs]

/-- Witness for C10 on a payload carrying only `observedAddr`: every
other field is absent from the wire, yet decode succeeds with the
defaults. -/
theorem decode_no_presence_check_witness :
    ∃ info oa, parse_proto_msg natCodec msgOnlyObserved = Except.ok (info, oa) ∧
      ((none : Option Bytes) = none → info.public_key = []) ∧
      ((none : Option String) = none → info.protocol_version = "") ∧
      ((none : Option String) = none → info.agent_version = "") ∧
      (([] : List Bytes) = [] → info.listen_addrs = []) ∧
      (([] : List String) = [] → info.protocols = []) :=
  decode_no_presence_check natCodec msgOnlyObserved
    { publicKey := none, protocolVersion := none, agentVersion := none
    , listenAddrs := [], observedAddr := some [7], protocols := [] }
    rfl ⟨[], rfl⟩ ⟨7, rfl⟩

end Libp2pIdentify
